import Mathlib

/-!
Verification of the PyERP conversion and plotting data logic (`src/py_erp.py`).

The numeric samples are embedded as rationals (`ℚ`): the Python code performs
only multiplications by the constants `1e-6`, `1e6` and `1000`, divisions by
`1000.0`, and arithmetic means, all of which are modelled exactly.

* `erp_to_fif_core` embeds the body of the `try:` block of `erp_to_fif`
  (lines 50-77), starting from the already-parsed MATLAB struct
  (`scipy.io.loadmat` and the fixed-position field extraction of lines 50-56
  are summarised by the `ErpStruct` record handed to it).  Exceptions become
  `Except.error`.
* `erp_to_fif` embeds the whole function including the `except` clause
  (lines 49-83); the file-system effects (`loadmat`, `mne.write_evokeds`) are
  parameters (`load` is the parse result, `writeErr` is the outcome of the
  write), and the would-be written content is returned in the `written` field
  instead of being written to disk.
* `channelBinData`, `avgChannelsData` and `avgBinsSeries` embed the data
  processing loops of `ErpProcessorApp._update_plot_display`
  (lines 530-567): per-channel collection, the averaged-channels branch and
  the "Average Bins" reduction.
-/

set_option autoImplicit false

namespace PyErp

/-- Embedding of the Python format specifier `{n:03}`: decimal digits of `n`
zero-padded on the left to a minimum width of 3. -/
def pad3 (n : ℕ) : String :=
  if n < 10 then "00" ++ toString n
  else if n < 100 then "0" ++ toString n
  else toString n

/-- The fields that `erp_to_fif` extracts from the loaded MATLAB struct
(lines 52-56 of `py_erp.py`):
* `bindata` is the 3-D array indexed channel × timepoint × bin;
* `times_ms` is the time vector `erp['times']` in milliseconds;
* `srate` is the sample rate;
* `labels` is `some ls` when `chanlocs` has a `labels` field (with `ls` its
  entries, possibly empty) and `none` when the field is absent;
* `nbin` is the declared number of bins. -/
structure ErpStruct where
  bindata : List (List (List ℚ))
  times_ms : List ℚ
  srate : ℚ
  labels : Option (List String)
  nbin : ℕ

/-- The `mne.create_info` result as used here: channel names and sample rate
(line 66; the constant `ch_types` list carries no information). -/
structure Info where
  ch_names : List String
  sfreq : ℚ
deriving DecidableEq, Repr

/-- One `mne.EvokedArray` (line 73): data matrix (channels × timepoints, in
volts), shared metadata, start time `tmin` (seconds) and the bin label. -/
structure Evoked where
  data : List (List ℚ)
  info : Info
  tmin : ℚ
  comment : String
deriving DecidableEq, Repr

/-- Default channel names `f'EEG{i+1:03}'` for `i in range(num_channels)`
(line 63). -/
def defaultChNames (num_channels : ℕ) : List String :=
  (List.range num_channels).map (fun i => "EEG" ++ pad3 (i + 1))

/-- Lines 59-63: use the `labels` entries when the field exists and is
non-empty, otherwise default names, one per row of `bindata`. -/
def computeChNames (erp : ErpStruct) : List String :=
  match erp.labels with
  | some ls => if ls.isEmpty then defaultChNames erp.bindata.length else ls
  | none => defaultChNames erp.bindata.length

/-- `row[:, bin_idx]` for one channel row of the 3-D array: `none` models the
`IndexError` numpy raises when some cell has no index `b`. -/
def sliceRow (row : List (List ℚ)) (b : ℕ) : Option (List ℚ) :=
  match row with
  | [] => some []
  | cell :: rest =>
    match cell.get? b, sliceRow rest b with
    | some v, some vs => some (v :: vs)
    | _, _ => none

/-- `bindata[:, :, bin_idx]` (line 72): the channels × timepoints matrix of
bin `b`; `none` models the numpy `IndexError`. -/
def binSlice (bindata : List (List (List ℚ))) (b : ℕ) : Option (List (List ℚ)) :=
  match bindata with
  | [] => some []
  | row :: rest =>
    match sliceRow row b, binSlice rest b with
    | some r, some rs => some (r :: rs)
    | _, _ => none

/-- The `* 1e-6` microvolt-to-volt scaling of line 72, applied entrywise. -/
def scaleBin (m : List (List ℚ)) : List (List ℚ) :=
  m.map (fun row => row.map (fun x => x * (1 / 1000000)))

/-- The loop of lines 70-74 over a list of bin indices (`range(nbin)` at the
call site).  For each index: slice the 3-D array (numpy `IndexError` if the
bin does not exist), scale to volts, read `times_s[0]` (`IndexError` on an
empty time vector), and build the `mne.EvokedArray`, whose constructor
requires the data row count to equal the channel count of `info`. -/
def buildEvokeds (bindata : List (List (List ℚ))) (chNames : List String)
    (info : Info) (times_s : List ℚ) : List ℕ → Except String (List Evoked)
  | [] => .ok []
  | b :: rest =>
    match binSlice bindata b with
    | none => .error ("index " ++ toString b ++ " is out of bounds for axis 2")
    | some slice =>
      match times_s with
      | [] => .error "index 0 is out of bounds for axis 0 with size 0"
      | t0 :: _ =>
        let dataV := scaleBin slice
        if dataV.length = chNames.length then
          match buildEvokeds bindata chNames info times_s rest with
          | .ok evs =>
            .ok ({ data := dataV, info := info, tmin := t0,
                   comment := "Bin " ++ toString (b + 1) } :: evs)
          | .error e => .error e
        else .error "Data must be a 2D array of shape (n_channels, n_times)"

/-- The `try:` body of `erp_to_fif` after field extraction (lines 57-74):
convert times to seconds, resolve channel names, build the shared `info`,
reject a non-positive sample rate (lines 67-68), then build one evoked record
per bin index in `range(nbin)`. -/
def erp_to_fif_core (erp : ErpStruct) : Except String (List Evoked) :=
  let times_s := erp.times_ms.map (fun t => t / 1000)
  let chNames := computeChNames erp
  let info : Info := { ch_names := chNames, sfreq := erp.srate }
  if info.sfreq ≤ 0 then .error "Sampling frequency must be positive."
  else buildEvokeds erp.bindata chNames info times_s (List.range erp.nbin)

/-- `os.path.basename` on the POSIX paths used here. -/
def basename (p : String) : String := (p.splitOn "/").getLastD p

/-- The success message of line 77. -/
def successMsg (input_file output_file : String) : String :=
  "Successfully converted \x27" ++ basename input_file ++ "\x27 to \x27"
    ++ basename output_file ++ "\x27"

/-- The prefix of the failure message of lines 79-80, up to the input
filename. -/
def errorMsgPre (e : String) : String :=
  "An error occurred during ERP to FIF conversion: " ++ e ++ "\nInput file: "

/-- Line 82: rendering of `erp_data[\x27ERP\x27].dtype.names`. -/
def keysLine : String :=
  "ERP structure keys: (\x27bindata\x27, \x27times\x27, \x27srate\x27, \x27chanlocs\x27, \x27nbin\x27)\n"

/-- The failure message of lines 79-83: error text, then the input filename,
then (when the struct had been loaded) the struct keys. -/
def errorMsg (e : String) (input_file : String) (structLoaded : Bool) : String :=
  errorMsgPre e ++ input_file ++ ("\n" ++ if structLoaded then keysLine else "")

/-- The observable outcome of one `erp_to_fif` call: the returned
`(success, message)` pair, plus the content handed to `mne.write_evokeds`
(`none` when the write step was never reached or itself failed). -/
structure ConvOutcome where
  success : Bool
  message : String
  written : Option (List Evoked)
deriving DecidableEq, Repr

/-- The whole of `erp_to_fif` (lines 49-83).  `load` is the outcome of
`scipy.io.loadmat` plus field extraction (lines 50-56); `writeErr` is the
outcome of `mne.write_evokeds` (line 76), consulted only when the conversion
reaches it.  Every exception path lands in the `except` clause and yields a
`(False, message)` pair; no exception escapes. -/
def erp_to_fif (load : Except String ErpStruct) (writeErr : Option String)
    (input_file output_file : String) : ConvOutcome :=
  match load with
  | .error e => { success := false, message := errorMsg e input_file false, written := none }
  | .ok erp =>
    match erp_to_fif_core erp with
    | .error e => { success := false, message := errorMsg e input_file true, written := none }
    | .ok evoked_list =>
      match writeErr with
      | some e => { success := false, message := errorMsg e input_file true, written := none }
      | none => { success := true, message := successMsg input_file output_file,
                  written := some evoked_list }

/-- The effect of one conversion run on the content of the output file:
`mne.write_evokeds(..., overwrite=True)` replaces the content on success,
and a failed conversion never reaches the write (line 76 is inside the
`try:`), leaving the file as it was. -/
def runFile (erp : ErpStruct) (fileContent : Option (List Evoked)) : Option (List Evoked) :=
  match erp_to_fif_core erp with
  | .ok evs => some evs
  | .error _ => fileContent

/-! ## Plot-update data logic (`ErpProcessorApp._update_plot_display`) -/

/-- One loaded evoked record as the plotting code sees it (`mne.read_evokeds`
result): channel names, data matrix (rows parallel to `ch_names`), time
vector in seconds, and the comment. -/
structure EvokedRec where
  ch_names : List String
  data : List (List ℚ)
  times : List ℚ
  comment : String
deriving DecidableEq, Repr

/-- Reading back an evoked record written by the conversion:
`mne.write_evokeds` / `mne.read_evokeds` preserve channel names, data and
comment; the reconstructed time vector is abstracted as a parameter. -/
def toRec (e : Evoked) (ts : List ℚ) : EvokedRec :=
  { ch_names := e.info.ch_names, data := e.data, times := ts, comment := e.comment }

/-- One plotted series as assembled by `_update_plot_display`
(lines 544 and 555): amplitudes in microvolts, times in milliseconds, and
the comment of the bin it came from. -/
structure Waveform where
  data : List ℚ
  times : List ℚ
  bin_comment : String
deriving DecidableEq, Repr

/-- Line 520: zero-based indices from the user-entered bin numbers,
`int(b) - 1` for each entry. -/
def targetBinIndices (entered : List ℤ) : List ℤ :=
  entered.map (fun b => b - 1)

/-- Lines 552-555: when the channel occurs in the record, its row scaled by
`1e6` together with `times * 1000`; otherwise nothing. -/
def selectChannel (ev : EvokedRec) (ch_name : String) : Option Waveform :=
  if ch_name ∈ ev.ch_names then
    let ch_idx_ev := ev.ch_names.indexOf ch_name
    some { data := (ev.data.getD ch_idx_ev []).map (fun x => x * 1000000),
           times := ev.times.map (fun t => t * 1000),
           bin_comment := ev.comment }
  else none

/-- One iteration of the inner loop of lines 549-555: the range guard of
line 550 (`continue` when `bin_idx` is outside `[0, len(evokeds))`), then
channel lookup. -/
def processBin (evokeds : List EvokedRec) (ch_name : String) (bin_idx : ℤ) :
    Option Waveform :=
  if 0 ≤ bin_idx ∧ bin_idx < (evokeds.length : ℤ) then
    match evokeds.get? bin_idx.toNat with
    | some ev => selectChannel ev ch_name
    | none => none
  else none

/-- Lines 547-557 for one channel: the per-bin series collected in loop
order, skipped bins contributing nothing. -/
def channelBinData (evokeds : List EvokedRec) (ch_name : String)
    (idxs : List ℤ) : List Waveform :=
  idxs.filterMap (processBin evokeds ch_name)

/-- `np.mean(np.array(rows), axis=0)` over equally long rows (line 543). -/
def meanRows (rows : List (List ℚ)) : List ℚ :=
  match rows with
  | [] => []
  | r :: _ => (List.range r.length).map
      (fun t => (rows.map (fun d => d.getD t 0)).sum / rows.length)

/-- One iteration of the averaged-channels loop of lines 532-544: the same
range guard (line 533), then the rows of the present target channels scaled
by `1e6`, their pointwise mean, and `times * 1000`; nothing when no target
channel is present. -/
def avgChProcessBin (evokeds : List EvokedRec) (target_channels : List String)
    (bin_idx : ℤ) : Option Waveform :=
  if 0 ≤ bin_idx ∧ bin_idx < (evokeds.length : ℤ) then
    match evokeds.get? bin_idx.toNat with
    | some ev =>
      let rows := target_channels.filterMap (fun ch =>
        if ch ∈ ev.ch_names then
          some ((ev.data.getD (ev.ch_names.indexOf ch) []).map (fun x => x * 1000000))
        else none)
      match rows with
      | [] => none
      | _ :: _ => some { data := meanRows rows,
                         times := ev.times.map (fun t => t * 1000),
                         bin_comment := ev.comment }
    | none => none
  else none

/-- Lines 530-545: the averaged-channels series, one per surviving bin. -/
def avgChannelsData (evokeds : List EvokedRec) (target_channels : List String)
    (idxs : List ℤ) : List Waveform :=
  idxs.filterMap (avgChProcessBin evokeds target_channels)

/-- `min(len(d) for d in ds)` for a non-empty `ds` (line 565); `0` in the
unreachable empty case. -/
def minLen : List (List ℚ) → ℕ
  | [] => 0
  | d :: rest => rest.foldl (fun m x => Nat.min m x.length) d.length

/-- Line 566: `np.mean(np.array([d[:m] for d in ds]), axis=0)` — each array
truncated to length `m`, then the pointwise mean. -/
def meanTrunc (ds : List (List ℚ)) (m : ℕ) : List ℚ :=
  (List.range m).map (fun t => (ds.map (fun d => d.getD t 0)).sum / ds.length)

/-- The "Average Bins" reduction of lines 562-567 for one group: truncate all
collected series to the shortest length, take the pointwise mean, and pair it
with the first series' times truncated the same way; `none` when the group is
empty (guard at line 564). -/
def avgBinsSeries : List Waveform → Option (List ℚ × List ℚ)
  | [] => none
  | w :: ws =>
    let ds := (w :: ws).map Waveform.data
    some (meanTrunc ds (minLen ds), w.times.take (minLen ds))

/-- The pointwise mean as the claim words it, over the full arrays with no
truncation: entry `t` is the mean of the `t`-th entries.  Stated for arrays
of a common length `L`; compared with the implementation in `C10`. -/
def pointwiseMeanSpec (ds : List (List ℚ)) (L : ℕ) : List ℚ :=
  (List.range L).map (fun t => (ds.map (fun d => d.getD t 0)).sum / ds.length)

/-- Entry of the 3-D `bindata` array at channel `c`, timepoint `t`, bin `b`. -/
def erpEntry (bindata : List (List (List ℚ))) (c t b : ℕ) : Option ℚ :=
  ((bindata.get? c).bind (fun row => row.get? t)).bind (fun cell => cell.get? b)

/-! ## Concrete inputs used by the witnesses -/

/-- A two-channel, two-timepoint, two-bin input. -/
def erpEx : ErpStruct :=
  { bindata := [[[1, 2], [3, 4]], [[5, 6], [7, 8]]],
    times_ms := [0, 4], srate := 250, labels := some ["Cz", "Pz"], nbin := 2 }

def infoEx : Info := { ch_names := ["Cz", "Pz"], sfreq := 250 }

/-- The first evoked record `erp_to_fif_core` produces from `erpEx`. -/
def evEx1 : Evoked :=
  { data := [[1 * (1 / 1000000), 3 * (1 / 1000000)],
             [5 * (1 / 1000000), 7 * (1 / 1000000)]],
    info := infoEx, tmin := 0, comment := "Bin " ++ toString 1 }

/-- The second evoked record `erp_to_fif_core` produces from `erpEx`. -/
def evEx2 : Evoked :=
  { data := [[2 * (1 / 1000000), 4 * (1 / 1000000)],
             [6 * (1 / 1000000), 8 * (1 / 1000000)]],
    info := infoEx, tmin := 0, comment := "Bin " ++ toString 2 }

/-- The evoked records `erp_to_fif_core` produces from `erpEx`. -/
def evsEx : List Evoked := [evEx1, evEx2]

/-- The series `selectChannel` produces for channel `Cz` of `evEx1`. -/
def wfSel : Waveform :=
  { data := [1 * (1 / 1000000) * 1000000, 3 * (1 / 1000000) * 1000000],
    times := [0 * 1000, 4 * 1000], bin_comment := "Bin " ++ toString 1 }

/-- `erpEx` with the channel-label field absent. -/
def erpNoLabels : ErpStruct :=
  { bindata := erpEx.bindata, times_ms := erpEx.times_ms, srate := erpEx.srate,
    labels := none, nbin := erpEx.nbin }

/-- `erpEx` with a zero sample rate. -/
def erpBadRate : ErpStruct :=
  { bindata := erpEx.bindata, times_ms := erpEx.times_ms, srate := 0,
    labels := erpEx.labels, nbin := erpEx.nbin }

/-- A loaded record as the plotting code sees it. -/
def recEx : EvokedRec :=
  { ch_names := ["Cz", "Pz"], data := [[1, 3], [5, 7]], times := [0, 4], comment := "Bin 1" }

/-- Two equally long collected series. -/
def wfA : Waveform := { data := [1, 2], times := [10, 20], bin_comment := "Bin 1" }

def wfB : Waveform := { data := [3, 4], times := [10, 20], bin_comment := "Bin 2" }

/-! ## Helper lemmas -/

theorem scaleBin_length (m : List (List ℚ)) : (scaleBin m).length = m.length := by
  simp [scaleBin]

theorem scaleBin_get? (m : List (List ℚ)) (c : ℕ) :
    (scaleBin m).get? c = (m.get? c).map (fun row => row.map (fun x => x * (1 / 1000000))) := by
  simp [scaleBin, List.get?_map]

theorem sliceRow_length {row : List (List ℚ)} {b : ℕ} {r : List ℚ}
    (h : sliceRow row b = some r) : r.length = row.length := by
  induction row generalizing r with
  | nil => simp [sliceRow] at h; simp [← h]
  | cons cell rest ih =>
    simp only [sliceRow] at h
    cases hc : cell.get? b with
    | none => rw [hc] at h; exact absurd h (by simp)
    | some v =>
      rw [hc] at h
      cases hr : sliceRow rest b with
      | none => rw [hr] at h; exact absurd h (by simp)
      | some vs =>
        rw [hr] at h
        cases h
        simp [ih hr]

theorem sliceRow_get {row : List (List ℚ)} {b : ℕ} {r : List ℚ}
    (h : sliceRow row b = some r) (t : ℕ) (cell : List ℚ)
    (ht : row.get? t = some cell) :
    ∃ v, cell.get? b = some v ∧ r.get? t = some v := by
  induction row generalizing r t with
  | nil => simp at ht
  | cons c0 rest ih =>
    simp only [sliceRow] at h
    cases hc : c0.get? b with
    | none => rw [hc] at h; exact absurd h (by simp)
    | some v =>
      rw [hc] at h
      cases hr : sliceRow rest b with
      | none => rw [hr] at h; exact absurd h (by simp)
      | some vs =>
        rw [hr] at h
        cases h
        cases t with
        | zero =>
          simp only [List.get?] at ht
          cases ht
          exact ⟨v, hc, rfl⟩
        | succ t =>
          simp only [List.get?] at ht ⊢
          exact ih hr t ht

theorem binSlice_length {bd : List (List (List ℚ))} {b : ℕ} {s : List (List ℚ)}
    (h : binSlice bd b = some s) : s.length = bd.length := by
  induction bd generalizing s with
  | nil => simp [binSlice] at h; simp [← h]
  | cons row rest ih =>
    simp only [binSlice] at h
    cases hr : sliceRow row b with
    | none => rw [hr] at h; exact absurd h (by simp)
    | some r =>
      rw [hr] at h
      cases hs : binSlice rest b with
      | none => rw [hs] at h; exact absurd h (by simp)
      | some rs =>
        rw [hs] at h
        cases h
        simp [ih hs]

theorem binSlice_get {bd : List (List (List ℚ))} {b : ℕ} {s : List (List ℚ)}
    (h : binSlice bd b = some s) (c : ℕ) (row : List (List ℚ))
    (hc : bd.get? c = some row) :
    ∃ r, sliceRow row b = some r ∧ s.get? c = some r := by
  induction bd generalizing s c with
  | nil => simp at hc
  | cons row0 rest ih =>
    simp only [binSlice] at h
    cases hr : sliceRow row0 b with
    | none => rw [hr] at h; exact absurd h (by simp)
    | some r =>
      rw [hr] at h
      cases hs : binSlice rest b with
      | none => rw [hs] at h; exact absurd h (by simp)
      | some rs =>
        rw [hs] at h
        cases h
        cases c with
        | zero =>
          simp only [List.get?] at hc
          cases hc
          exact ⟨r, hr, rfl⟩
        | succ c =>
          simp only [List.get?] at hc ⊢
          exact ih hs c hc

theorem buildEvokeds_ok {bd : List (List (List ℚ))} {ch : List String} {info : Info}
    {ts : List ℚ} {l : List ℕ} {evs : List Evoked}
    (h : buildEvokeds bd ch info ts l = .ok evs) :
    evs.length = l.length ∧
    ∀ k b : ℕ, l.get? k = some b →
      ∃ slice, binSlice bd b = some slice ∧ (scaleBin slice).length = ch.length ∧
        evs.get? k = some { data := scaleBin slice, info := info, tmin := ts.headD 0,
                            comment := "Bin " ++ toString (b + 1) } := by
  induction l generalizing evs with
  | nil =>
    simp only [buildEvokeds] at h
    cases h
    exact ⟨rfl, by intro k b hk; simp at hk⟩
  | cons b0 rest ih =>
    simp only [buildEvokeds] at h
    cases hbs : binSlice bd b0 with
    | none => rw [hbs] at h; exact absurd h (by simp)
    | some slice =>
      rw [hbs] at h
      cases ts with
      | nil => exact absurd h (by simp)
      | cons t0 ts0 =>
        dsimp only at h
        by_cases hl : (scaleBin slice).length = ch.length
        · rw [if_pos hl] at h
          cases hrec : buildEvokeds bd ch info (t0 :: ts0) rest with
          | error e => rw [hrec] at h; exact absurd h (by simp)
          | ok evs0 =>
            rw [hrec] at h
            cases h
            obtain ⟨hlen, hget⟩ := ih hrec
            refine ⟨by simp [hlen], ?_⟩
            intro k b hk
            cases k with
            | zero =>
              simp only [List.get?] at hk
              cases hk
              exact ⟨slice, hbs, hl, rfl⟩
            | succ k =>
              simp only [List.get?] at hk ⊢
              exact hget k b hk
        · rw [if_neg hl] at h
          exact absurd h (by simp)

/-- Master description of a successful `erp_to_fif_core` run: `nbin` records,
the `b`-th being the scaled `b`-th bin slice with the shared metadata. -/
theorem core_ok {erp : ErpStruct} {evs : List Evoked}
    (h : erp_to_fif_core erp = .ok evs) :
    evs.length = erp.nbin ∧
    ∀ b e, evs.get? b = some e →
      ∃ slice, binSlice erp.bindata b = some slice ∧
        (scaleBin slice).length = (computeChNames erp).length ∧
        e = { data := scaleBin slice,
              info := { ch_names := computeChNames erp, sfreq := erp.srate },
              tmin := (erp.times_ms.map (fun t0 => t0 / 1000)).headD 0,
              comment := "Bin " ++ toString (b + 1) } := by
  simp only [erp_to_fif_core] at h
  by_cases hsr : erp.srate ≤ 0
  · rw [if_pos hsr] at h
    exact absurd h (by simp)
  · rw [if_neg hsr] at h
    obtain ⟨hlen, hget⟩ := buildEvokeds_ok h
    refine ⟨by simpa using hlen, ?_⟩
    intro b e hb
    have hblt : b < evs.length := (List.get?_eq_some.mp hb).1
    have hbn : b < erp.nbin := by
      have := hlen
      simp only [List.length_range] at this
      omega
    obtain ⟨slice, h1, h2, h3⟩ := hget b b (List.get?_range hbn)
    rw [hb] at h3
    exact ⟨slice, h1, h2, by injection h3⟩

theorem headD_map_div (l : List ℚ) :
    (l.map (fun t0 => t0 / 1000)).headD 0 = l.headD 0 / 1000 := by
  cases l <;> simp

/-- Concrete run of the conversion core on `erpEx`. -/
theorem coreEx : erp_to_fif_core erpEx = .ok evsEx := by
  simp [erp_to_fif_core, erpEx, evsEx, evEx1, evEx2, infoEx, computeChNames,
        buildEvokeds, binSlice, sliceRow, scaleBin]

/-! ## Claim theorems -/

/-- Claim C1: when the conversion succeeds on a struct with `nbin = N`, it
produces exactly `N` labeled evoked records, and each record's data matrix
has exactly as many rows as the struct declares channels — the row count of
`bindata`, which equals the length of the channel-name list. -/
theorem C1_bin_count_and_channel_rows (erp : ErpStruct) (evs : List Evoked)
    (h : erp_to_fif_core erp = .ok evs) :
    evs.length = erp.nbin ∧
    ∀ e ∈ evs, e.data.length = erp.bindata.length ∧
      e.data.length = (computeChNames erp).length := by
  obtain ⟨hlen, hget⟩ := core_ok h
  refine ⟨hlen, ?_⟩
  intro e he
  obtain ⟨b, hb⟩ := List.mem_iff_get?.mp he
  obtain ⟨slice, h1, h2, h3⟩ := hget b e hb
  subst h3
  have hsl := binSlice_length h1
  constructor
  · simp [scaleBin_length, hsl]
  · simpa using h2

/-- Witness for C1 at the concrete input `erpEx`. -/
theorem C1_witness :
    erp_to_fif_core erpEx = .ok evsEx ∧
    (evsEx.length = erpEx.nbin ∧
      ∀ e ∈ evsEx, e.data.length = erpEx.bindata.length ∧
        e.data.length = (computeChNames erpEx).length) :=
  ⟨coreEx, C1_bin_count_and_channel_rows erpEx evsEx coreEx⟩

/-- Claim C2: for a successful conversion, the amplitude stored in the `b`-th
output record at channel `c`, timepoint `t` is exactly `bindata[c, t, b]`
multiplied by `1e-6`, with no other transformation. -/
theorem C2_amplitude_scaling (erp : ErpStruct) (evs : List Evoked) (b c t : ℕ)
    (e : Evoked) (x : ℚ)
    (h : erp_to_fif_core erp = .ok evs)
    (hb : evs.get? b = some e)
    (hx : erpEntry erp.bindata c t b = some x) :
    (e.data.get? c).bind (fun row => row.get? t) = some (x * (1 / 1000000)) := by
  obtain ⟨slice, hbs, hlen2, he⟩ := (core_ok h).2 b e hb
  subst he
  simp only [erpEntry, Option.bind_eq_some] at hx
  obtain ⟨cell, ⟨row, hrow, hcell⟩, hxb⟩ := hx
  obtain ⟨r, hsrow, hsc⟩ := binSlice_get hbs c row hrow
  obtain ⟨v, hv, hrt⟩ := sliceRow_get hsrow t cell hcell
  have hvx : v = x := by rw [hv] at hxb; injection hxb
  subst hvx
  show ((scaleBin slice).get? c).bind (fun row => row.get? t) = _
  rw [scaleBin_get?, hsc]
  simp [List.get?_map]
  rw [← List.get?_eq_getElem?]
  exact hrt

/-- Witness for C2: entry `(c, t, b) = (0, 1, 1)` of `erpEx` has value `4`,
and the second output record stores `4 * 1e-6` there. -/
theorem C2_witness :
    erpEntry erpEx.bindata 0 1 1 = some 4 ∧
    ((evEx2.data.get? 0).bind (fun row => row.get? 1)) = some (4 * (1 / 1000000)) :=
  ⟨by decide, C2_amplitude_scaling erpEx evsEx 1 0 1 evEx2 4 coreEx rfl (by decide)⟩

/-- Claim C3: a non-positive sample rate always fails the conversion: the
result is `(False, message)` and the output file is never written. -/
theorem C3_nonpositive_srate_fails (erp : ErpStruct) (writeErr : Option String)
    (input_file output_file : String) (h : erp.srate ≤ 0) :
    (erp_to_fif (.ok erp) writeErr input_file output_file).success = false ∧
    (erp_to_fif (.ok erp) writeErr input_file output_file).written = none := by
  have hc : erp_to_fif_core erp = .error "Sampling frequency must be positive." := by
    simp [erp_to_fif_core, h]
  simp [erp_to_fif, hc]

/-- Witness for C3 at `erpBadRate`, whose sample rate is `0`. -/
theorem C3_witness :
    erpBadRate.srate ≤ 0 ∧
    ((erp_to_fif (.ok erpBadRate) none "in.erp" "out.fif").success = false ∧
      (erp_to_fif (.ok erpBadRate) none "in.erp" "out.fif").written = none) :=
  ⟨by simp [erpBadRate], C3_nonpositive_srate_fails erpBadRate none "in.erp" "out.fif"
    (by simp [erpBadRate])⟩

/-- Claim C4: `erp_to_fif` is total: every input — load failure, conversion
failure, write failure, or success — yields a `(success, message)` outcome,
and on every failure the message carries the input filename. -/
theorem C4_total_and_annotated (load : Except String ErpStruct) (writeErr : Option String)
    (input_file output_file : String) :
    ∃ r : ConvOutcome, erp_to_fif load writeErr input_file output_file = r ∧
      (r.success = false → ∃ p s, r.message = p ++ input_file ++ s) := by
  cases load with
  | error e =>
    exact ⟨_, rfl, fun _ => ⟨errorMsgPre e, "\n" ++ "", rfl⟩⟩
  | ok erp =>
    cases hc : erp_to_fif_core erp with
    | error e =>
      refine ⟨_, rfl, fun _ => ⟨errorMsgPre e, "\n" ++ keysLine, ?_⟩⟩
      simp [erp_to_fif, hc, errorMsg]
    | ok evoked_list =>
      cases writeErr with
      | some e =>
        refine ⟨_, rfl, fun _ => ⟨errorMsgPre e, "\n" ++ keysLine, ?_⟩⟩
        simp [erp_to_fif, hc, errorMsg]
      | none =>
        refine ⟨_, rfl, fun hfalse => absurd hfalse ?_⟩
        simp [erp_to_fif, hc]

/-- Witness for C4 at a failing load. -/
theorem C4_witness :
    ∃ r : ConvOutcome, erp_to_fif (.error "bad file") none "in.erp" "out.fif" = r ∧
      (r.success = false → ∃ p s, r.message = p ++ "in.erp" ++ s) :=
  C4_total_and_annotated (.error "bad file") none "in.erp" "out.fif"

theorem processBin_out_of_range (evokeds : List EvokedRec) (ch_name : String) (i : ℤ)
    (h : ¬ (0 ≤ i ∧ i < (evokeds.length : ℤ))) :
    processBin evokeds ch_name i = none := by
  simp only [processBin, if_neg h]

theorem avgChProcessBin_out_of_range (evokeds : List EvokedRec)
    (target_channels : List String) (i : ℤ)
    (h : ¬ (0 ≤ i ∧ i < (evokeds.length : ℤ))) :
    avgChProcessBin evokeds target_channels i = none := by
  simp only [avgChProcessBin, if_neg h]

/-- Claim C5: a user-entered bin number `n` whose zero-based index `n - 1`
falls outside `[0, number_of_loaded_records)` — including `0` and negative
entries, whose indices are negative — is skipped by the range guard in both
plotting branches: it produces no series, and the remaining indices are
processed exactly as if it were absent. -/
theorem C5_out_of_range_bin_skipped (evokeds : List EvokedRec) (ch_name : String)
    (target_channels : List String) (pre post : List ℤ) (n : ℤ)
    (h : ¬ (0 ≤ n - 1 ∧ n - 1 < (evokeds.length : ℤ))) :
    channelBinData evokeds ch_name (targetBinIndices (pre ++ n :: post)) =
      channelBinData evokeds ch_name (targetBinIndices (pre ++ post)) ∧
    avgChannelsData evokeds target_channels (targetBinIndices (pre ++ n :: post)) =
      avgChannelsData evokeds target_channels (targetBinIndices (pre ++ post)) := by
  constructor <;>
    simp [channelBinData, avgChannelsData, targetBinIndices,
      processBin_out_of_range _ _ _ h, avgChProcessBin_out_of_range _ _ _ h]

/-- Witness for C5: the entered bin number `0` (index `-1`) is skipped and
the in-range entry `1` is still processed. -/
theorem C5_witness :
    ¬ (0 ≤ (0 : ℤ) - 1 ∧ (0 : ℤ) - 1 < (([recEx] : List EvokedRec).length : ℤ)) ∧
    (channelBinData [recEx] "Cz" (targetBinIndices ([] ++ (0 : ℤ) :: [1])) =
        channelBinData [recEx] "Cz" (targetBinIndices ([] ++ [1])) ∧
      avgChannelsData [recEx] ["Cz"] (targetBinIndices ([] ++ (0 : ℤ) :: [1])) =
        avgChannelsData [recEx] ["Cz"] (targetBinIndices ([] ++ [1]))) :=
  ⟨by decide, C5_out_of_range_bin_skipped [recEx] "Cz" ["Cz"] [] [1] 0 (by decide)⟩

/-- Claim C6: the conversion is a pure function of the parsed input, and with
`overwrite=True` a second run rewrites the same content: the output-file
content after two runs equals the content after one. -/
theorem C6_idempotent_content (erp : ErpStruct) (st : Option (List Evoked)) :
    runFile erp (runFile erp st) = runFile erp st := by
  cases hc : erp_to_fif_core erp with
  | ok evs => simp [runFile, hc]
  | error e => simp [runFile, hc]

/-- Claim C7: with the labels field absent or empty the conversion
substitutes default channel names `EEG001, EEG002, ...`, one per row of the
bin data matrix; present non-empty labels are used verbatim in order. -/
theorem C7_channel_name_defaults (erp : ErpStruct) :
    ((erp.labels = none ∨ erp.labels = some []) →
      computeChNames erp =
        (List.range erp.bindata.length).map (fun i => "EEG" ++ pad3 (i + 1)) ∧
      (computeChNames erp).length = erp.bindata.length) ∧
    (∀ ls, erp.labels = some ls → ls ≠ [] → computeChNames erp = ls) := by
  constructor
  · rintro (hl | hl) <;> simp [computeChNames, hl, defaultChNames]
  · intro ls hls hne
    simp [computeChNames, hls, List.isEmpty_iff, hne]

/-- Witness for C7: `erpNoLabels` gets `EEG001, EEG002`; `erpEx` keeps its
labels verbatim. -/
theorem C7_witness :
    computeChNames erpNoLabels = ["EEG001", "EEG002"] ∧
    computeChNames erpEx = ["Cz", "Pz"] := by
  constructor
  · have h := (C7_channel_name_defaults erpNoLabels).1 (Or.inl rfl)
    rw [h.1]
    decide
  · exact (C7_channel_name_defaults erpEx).2 ["Cz", "Pz"] rfl (by decide)

/-- Claim C8: every record of one successful conversion call carries the same
metadata: the single `info` (channel names and sample rate) and the same
start time `times[0] / 1000` seconds. -/
theorem C8_shared_metadata (erp : ErpStruct) (evs : List Evoked)
    (h : erp_to_fif_core erp = .ok evs) :
    ∀ e ∈ evs, e.info = { ch_names := computeChNames erp, sfreq := erp.srate } ∧
      e.tmin = erp.times_ms.headD 0 / 1000 := by
  intro e he
  obtain ⟨b, hb⟩ := List.mem_iff_get?.mp he
  obtain ⟨slice, h1, h2, h3⟩ := (core_ok h).2 b e hb
  subst h3
  exact ⟨rfl, headD_map_div _⟩

/-- Witness for C8 at `erpEx`. -/
theorem C8_witness :
    erp_to_fif_core erpEx = .ok evsEx ∧
    ∀ e ∈ evsEx, e.info = { ch_names := computeChNames erpEx, sfreq := erpEx.srate } ∧
      e.tmin = erpEx.times_ms.headD 0 / 1000 :=
  ⟨coreEx, C8_shared_metadata erpEx evsEx coreEx⟩

/-- Claim C9: the plot-update operation multiplies stored samples by `1e6`
and stored times by `1000`; a sample that survives conversion and channel
selection is therefore plotted at exactly its original `.erp` amplitude. -/
theorem C9_unit_round_trip (erp : ErpStruct) (evs : List Evoked) (b : ℕ) (e : Evoked)
    (ts : List ℚ) (ch_name : String) (w : Waveform) (t : ℕ) (x : ℚ)
    (h : erp_to_fif_core erp = .ok evs)
    (hb : evs.get? b = some e)
    (hw : selectChannel (toRec e ts) ch_name = some w)
    (hx : erpEntry erp.bindata ((computeChNames erp).indexOf ch_name) t b = some x) :
    w.data.get? t = some x ∧ w.times = ts.map (fun t0 => t0 * 1000) := by
  obtain ⟨slice, hbs, hlen2, he⟩ := (core_ok h).2 b e hb
  subst he
  simp only [selectChannel, toRec] at hw
  by_cases hmem : ch_name ∈ computeChNames erp
  · rw [if_pos hmem] at hw
    injection hw with hw2
    subst hw2
    simp only [erpEntry, Option.bind_eq_some] at hx
    obtain ⟨cell, ⟨row, hrow, hcell⟩, hxb⟩ := hx
    obtain ⟨r, hsrow, hsc⟩ := binSlice_get hbs ((computeChNames erp).indexOf ch_name) row hrow
    obtain ⟨v, hv, hrt⟩ := sliceRow_get hsrow t cell hcell
    have hvx : v = x := by rw [hv] at hxb; injection hxb
    subst hvx
    have hdata : (scaleBin slice).getD ((computeChNames erp).indexOf ch_name) []
        = r.map (fun x0 => x0 * (1 / 1000000)) := by
      rw [List.getD_eq_getD_get?, scaleBin_get?, hsc]
      rfl
    constructor
    · show (((scaleBin slice).getD ((computeChNames erp).indexOf ch_name) []).map
        (fun x0 => x0 * 1000000)).get? t = some v
      rw [hdata]
      have hval : v * (1 / 1000000) * 1000000 = v := by
        rw [mul_assoc]
        simp
      have hrt2 : r[t]? = some v := by
        rw [← List.get?_eq_getElem?]
        exact hrt
      simp [List.get?_map, hrt2, hval]
    · rfl
  · rw [if_neg hmem] at hw
    exact absurd hw (by simp)

/-- Witness for C9: `bindata[0, 1, 0] = 3` in `erpEx` survives selection of
channel `Cz` and is plotted with value `3` at time `4 * 1000`. -/
theorem C9_witness :
    erpEntry erpEx.bindata ((computeChNames erpEx).indexOf "Cz") 1 0 = some 3 ∧
    (wfSel.data.get? 1 = some 3 ∧
      wfSel.times = [(0 : ℚ), 4].map (fun t0 => t0 * 1000)) :=
  ⟨by decide,
   C9_unit_round_trip erpEx evsEx 0 evEx1 [0, 4] "Cz" wfSel 1 3 coreEx rfl
     (by simp [selectChannel, toRec, evEx1, infoEx, wfSel]) (by decide)⟩

theorem foldl_min_const {xs : List (List ℚ)} {L : ℕ} (h : ∀ x ∈ xs, x.length = L) :
    ∀ acc, acc = L → xs.foldl (fun m x => Nat.min m x.length) acc = L := by
  induction xs with
  | nil => intro acc ha; simpa using ha
  | cons x xs ih =>
    intro acc ha
    simp only [List.foldl_cons]
    refine ih (fun y hy => h y (List.mem_cons_of_mem _ hy)) _ ?_
    rw [ha, h x (List.mem_cons_self _ _)]
    simp

theorem minLen_eq_of_all {ds : List (List ℚ)} {L : ℕ} (hne : ds ≠ [])
    (h : ∀ d ∈ ds, d.length = L) : minLen ds = L := by
  cases ds with
  | nil => exact absurd rfl hne
  | cons d rest =>
    exact foldl_min_const (fun y hy => h y (List.mem_cons_of_mem _ hy)) _
      (h d (List.mem_cons_self _ _))

/-- Claim C10: the "Average Bins" series truncates every selected series to
the shortest length and takes the pointwise mean, so its length is the
minimum input length; with equal-length inputs it is the exact pointwise
mean with no truncation. -/
theorem C10_average_bins (w : Waveform) (ws : List Waveform) :
    (∃ s ts, avgBinsSeries (w :: ws) = some (s, ts) ∧
        s.length = minLen ((w :: ws).map Waveform.data)) ∧
    ∀ L : ℕ, (∀ d ∈ (w :: ws).map Waveform.data, d.length = L) →
      avgBinsSeries (w :: ws) =
        some (pointwiseMeanSpec ((w :: ws).map Waveform.data) L, w.times.take L) := by
  constructor
  · exact ⟨_, _, rfl, by simp [meanTrunc]⟩
  · intro L hL
    have hm : minLen ((w :: ws).map Waveform.data) = L :=
      minLen_eq_of_all (by simp) hL
    simp only [avgBinsSeries]
    rw [hm]
    rfl

/-- Witness for C10 on two equal-length series: the averaged series is their
exact pointwise mean. -/
theorem C10_witness :
    (∃ s ts, avgBinsSeries (wfA :: [wfB]) = some (s, ts) ∧
        s.length = minLen ((wfA :: [wfB]).map Waveform.data)) ∧
    avgBinsSeries (wfA :: [wfB]) =
      some (pointwiseMeanSpec ((wfA :: [wfB]).map Waveform.data) 2, wfA.times.take 2) :=
  ⟨(C10_average_bins wfA [wfB]).1, (C10_average_bins wfA [wfB]).2 2 (by decide)⟩

end PyErp
